import Mathlib

/-!
Verification of the stream-axios core (src/core/stream.js): the SSE
parsers (parseSSEEvent, parseSSEChunk, createSSEParser) and the stream
session controller (createStreamRequest).  JS strings are modelled as
lists of characters; the JS string operations used by the source
(split, trim, startsWith, slice, parseInt) are embedded explicitly.
The session controller's interaction with the transport is modelled by
an outcome oracle: how the issuance resolves and, when a stream is
obtained, which decoded chunks arrive and how the stream ends.
-/

namespace StreamAxios

/-- Convert a Lean string literal to the character-list model of a JS string. -/
def lc (s : String) : List Char := s.toList

/-- Prepend a character to the head segment of a split-in-progress:
models the cons step of a left-to-right scan for a separator.  The first
component is the list of completed segments, the second the trailing
segment still being scanned. -/
def consHead (c : Char) : List (List Char) × List Char → List (List Char) × List Char
  | ([], l) => ([], c :: l)
  | (s :: ss, l) => ((c :: s) :: ss, l)

/-- Model of JS `s.split("\n\n")`, greedy left-to-right non-overlapping
matching of the two-newline separator, returned as (all segments except
the last, last segment).  The source's createSSEParser computes exactly
this shape: `parts.pop()` removes the final segment into the buffer and
the remaining `parts` are the completed frames. -/
def splitSSE : List Char → List (List Char) × List Char
  | [] => ([], [])
  | [c] => consHead c ([], [])
  | c :: c' :: rest =>
    if c = '\n' ∧ c' = '\n' then
      let p := splitSSE rest
      ([] :: p.1, p.2)
    else
      consHead c (splitSSE (c' :: rest))

/-- Model of the full JS `s.split("\n\n")` result: the completed segments
followed by the trailing segment. -/
def jsSplitNN (s : List Char) : List (List Char) :=
  (splitSSE s).1 ++ [(splitSSE s).2]

/-- Model of JS `s.split("\n")` (single-newline separator, used by
parseSSEEvent to cut a block into lines). -/
def splitLines : List Char → List (List Char)
  | [] => [[]]
  | c :: rest =>
    if c = '\n' then [] :: splitLines rest
    else
      match splitLines rest with
      | [] => [[c]]
      | s :: ss => (c :: s) :: ss

/-- JS whitespace class (restricted to the ASCII whitespace characters
that can appear in this protocol). -/
def isWS (c : Char) : Bool :=
  c = ' ' || c = '\t' || c = '\n' || c = '\r' || c = '\x0b' || c = '\x0c'

/-- Model of JS String.prototype.trim. -/
def jsTrim (s : List Char) : List Char :=
  ((s.dropWhile isWS).reverse.dropWhile isWS).reverse

/-- Numeric value of the maximal leading run of decimal digits. -/
def digitsVal (s : List Char) : Nat :=
  (s.takeWhile Char.isDigit).foldl (fun a c => a * 10 + (c.toNat - 48)) 0

/-- Model of JS `parseInt(s, 10)` on an already-trimmed string: an optional
sign followed by at least one decimal digit parses to the (signed) value of
the maximal digit run; anything else is NaN, modelled as `none`. -/
def jsParseInt (s : List Char) : Option Int :=
  match s with
  | '-' :: rest =>
    if (rest.head?.map Char.isDigit).getD false then
      some (-(digitsVal rest : Int))
    else none
  | '+' :: rest =>
    if (rest.head?.map Char.isDigit).getD false then
      some ((digitsVal rest : Int))
    else none
  | _ =>
    if (s.head?.map Char.isDigit).getD false then
      some ((digitsVal s : Int))
    else none

/-- An SSE event object: the four optional fields of the source's
parseSSEEvent result. -/
structure SSEEvent where
  event : Option (List Char) := none
  data : Option (List Char) := none
  id : Option (List Char) := none
  retry : Option Int := none
  deriving DecidableEq, Repr

/-- The mutable locals of parseSSEEvent during its scan of the block's
lines: the three single-valued fields of `result` plus the collected
`dataLines`. -/
structure EvAcc where
  event : Option (List Char) := none
  id : Option (List Char) := none
  retry : Option Int := none
  dataLines : List (List Char) := []
  deriving DecidableEq, Repr

/-- One iteration of parseSSEEvent's for-loop over the lines of a block:
`data:` collects content (one optional leading space stripped), `event:`
and `id:` set trimmed values, `retry:` sets the parsed integer only when
parseInt does not return NaN, all other lines are ignored. -/
def processLine (acc : EvAcc) (line : List Char) : EvAcc :=
  if (lc "data:").isPrefixOf line then
    let content := line.drop 5
    let content2 := if content.head? = some ' ' then content.drop 1 else content
    { acc with dataLines := acc.dataLines ++ [content2] }
  else if (lc "event:").isPrefixOf line then
    { acc with event := some (jsTrim (line.drop 6)) }
  else if (lc "id:").isPrefixOf line then
    { acc with id := some (jsTrim (line.drop 3)) }
  else if (lc "retry:").isPrefixOf line then
    match jsParseInt (jsTrim (line.drop 6)) with
    | some n => { acc with retry := some n }
    | none => acc
  else acc

/-- Model of parseSSEEvent: split the block on newlines, scan the lines,
join the collected data lines with a newline, and return the object only
when at least one field was set (`Object.keys(result).length > 0`). -/
def parseSSEEvent (eventBlock : List Char) : Option SSEEvent :=
  let acc := (splitLines eventBlock).foldl processLine {}
  let dataF : Option (List Char) :=
    if acc.dataLines = [] then none
    else some (List.intercalate (lc "\n") acc.dataLines)
  if acc.event.isSome || dataF.isSome || acc.id.isSome || acc.retry.isSome then
    some { event := acc.event, data := dataF, id := acc.id, retry := acc.retry }
  else none

/-- Model of parseSSEChunk (the stateless extractor): split on the frame
separator, drop empty segments (`filter(Boolean)`), parse each block, and
emit `parsed.data` exactly when present and non-empty (the truthiness test
`parsed?.data`). -/
def parseSSEChunk (sseText : List Char) : List (List Char) :=
  ((jsSplitNN sseText).filter (fun b => !b.isEmpty)).filterMap fun eventBlock =>
    match parseSSEEvent eventBlock with
    | some ev =>
      match ev.data with
      | some d => if d.isEmpty then none else some d
      | none => none
    | none => none

/-- The `data:` contribution of one line, as the spec words it: lines
matching the `data:` prefix contribute their content with one optional
leading space stripped; other lines contribute nothing. -/
def dataContent (line : List Char) : Option (List Char) :=
  if (lc "data:").isPrefixOf line then
    let content := line.drop 5
    some (if content.head? = some ' ' then content.drop 1 else content)
  else none

/-- The Stateless SSE Extractor as the spec words it: split on the
blank-line separator into frames; for each frame concatenate the content
of every line matching the `data:` prefix using the incremental parser's
multi-line join rule (newline-joined, in order) and invoke the callback
with the result iff it is non-empty. -/
def extractSpec (sseText : List Char) : List (List Char) :=
  (jsSplitNN sseText).filterMap fun frame =>
    let d := List.intercalate (lc "\n") ((splitLines frame).filterMap dataContent)
    if d.isEmpty then none else some d

/-- Processing of one completed frame inside the feed function returned by
createSSEParser: whitespace-only frames are skipped (`!eventBlock.trim()`)
and frames whose parse is null produce nothing. -/
def processFrame (eventBlock : List Char) : Option SSEEvent :=
  if jsTrim eventBlock = [] then none else parseSSEEvent eventBlock

/-- One call of the function returned by createSSEParser: append the chunk
to the buffer, split on the double newline, keep the last segment as the
new buffer, and emit every parsed non-blank completed frame in order. -/
def feedSSE (buffer chunk : List Char) : List Char × List SSEEvent :=
  let p := splitSSE (buffer ++ chunk)
  (p.2, p.1.filterMap processFrame)

/-- Threading of the parser state over a sequence of feed calls, also
accumulating the events emitted so far. -/
def feedStep (st : List Char × List SSEEvent) (c : List Char) :
    List Char × List SSEEvent :=
  let r := feedSSE st.1 c
  (r.1, st.2 ++ r.2)

/-- Feeding a whole sequence of chunks to one parser instance created with
an empty buffer, collecting all emitted events in order. -/
def feedMany (chunks : List (List Char)) : List Char × List SSEEvent :=
  chunks.foldl feedStep ([], [])

/-- Trace events observable from one streaming session: the three
callback invocations plus the internal cleanup() call, which is what
deregisters the external-signal observer. -/
inductive SEv
  | onChunk (s : List Char)
  | onComplete
  | onError (msg : List Char)
  | cleanupRun
  deriving DecidableEq, Repr

/-- How the body stream ends once reading has started: normal end of
stream (`done: true`), a read rejection carrying a non-abort error, or a
rejection named AbortError — the effect of a cancellation (manual handle
or external signal) on the pending read. -/
inductive StreamEnd
  | done
  | readError (msg : List Char)
  | aborted
  deriving DecidableEq, Repr

/-- Outcome of issuing the request through the axios instance: a
cancellation rejection (CanceledError / ERR_CANCELED), any other issue
failure — including the locally thrown unsupported-stream error — with
the rejection's message, or a readable stream delivering the given
decoded text chunks and then ending. -/
inductive IssueOutcome
  | canceled
  | failed (msg : List Char)
  | stream (chunks : List (List Char)) (ending : StreamEnd)
  deriving DecidableEq, Repr

/-- The stream-relevant request options: the documented retry
configuration plus the external cancellation signal's state at wiring
time. -/
structure StreamOptions where
  retry : Nat := 0
  retryDelay : Nat := 1000
  hasSignal : Bool := false
  signalAborted : Bool := false
  deriving DecidableEq, Repr

/-- The recursive readStreamChunk loop: each resolved read invokes
onChunk with the decoded chunk and recurses; `done` runs cleanup then
onComplete; a non-abort rejection runs cleanup then onError with the
prefixed message; an AbortError rejection runs cleanup and returns
silently. -/
def readLoop : List (List Char) → StreamEnd → List SEv
  | [], .done => [.cleanupRun, .onComplete]
  | [], .readError m => [.cleanupRun, .onError (lc "Read stream failed: " ++ m)]
  | [], .aborted => [.cleanupRun]
  | c :: cs, e => .onChunk c :: readLoop cs e

/-- The trace of one call to the function returned by createStreamRequest
under a given issue outcome: a cancellation rejection produces no
callbacks (the catch returns the cancel handle directly, without running
cleanup), any other issue failure invokes onError once with the message
(or the default text when the message is empty) and also runs no cleanup,
and an obtained stream is driven by the read loop.  The options argument
is accepted but never consulted: the source contains no retry logic. -/
def runSession (_opts : StreamOptions) : IssueOutcome → List SEv
  | .canceled => []
  | .failed m => [.onError (if m.isEmpty then lc "Stream request failed" else m)]
  | .stream cs e => readLoop cs e

/-- Whether a trace event is a terminal callback. -/
def isTerminalEv : SEv → Bool
  | .onComplete => true
  | .onError _ => true
  | _ => false

/-- Whether a trace event is an onChunk invocation. -/
def isChunkEv : SEv → Bool
  | .onChunk _ => true
  | _ => false

/-- Number of terminal callbacks (onComplete or onError) in a trace. -/
def termCount (t : List SEv) : Nat := t.countP isTerminalEv

/-- Number of onChunk invocations in a trace. -/
def chunkCount (t : List SEv) : Nat := t.countP isChunkEv

/-- Number of onComplete invocations in a trace. -/
def completeCount (t : List SEv) : Nat := t.countP fun e => e = SEv.onComplete

/-- Whether the outcome involves a cancellation taking effect: either the
issuance itself was rejected as canceled, or the read loop was ended by an
AbortError. -/
def isCancelOutcome : IssueOutcome → Bool
  | .canceled => true
  | .stream _ .aborted => true
  | _ => false

/-- State manipulated by the cancelRequest closure: whether the external
observer is still registered, whether the controller has aborted, whether
a reader has been obtained and whether its lock was already released, and
whether an onError callback was supplied. -/
structure CancelCtx where
  handlerRegistered : Bool
  aborted : Bool
  readerPresent : Bool
  readerReleased : Bool
  hasOnError : Bool
  deriving DecidableEq, Repr

/-- Observable effects of one cancelRequest invocation. -/
inductive CEv
  | deregister
  | abortFired
  | releaseLock
  | onErrorCancel
  | consoleError
  deriving DecidableEq, Repr

/-- Failure oracle for the steps of the try block that can throw: the
reader's releaseLock call and the user-supplied onError callback. -/
structure CancelOracle where
  releaseThrows : Bool := false
  onErrorThrows : Bool := false
  deriving DecidableEq, Repr

/-- The try block of cancelRequest, in source order: cleanup(),
controller.abort(), reader?.releaseLock(), then the onError cancellation
notice.  removeEventListener and AbortController.abort never throw; the
signal fires only on its first abort; releaseLock is invoked only when a
reader exists and actually releases only when not yet released.  An error
result carries the state and the effects that happened before the throw. -/
def cancelTryBody (ctx : CancelCtx) (o : CancelOracle) :
    Except (CancelCtx × List CEv) (CancelCtx × List CEv) :=
  let ev1 : List CEv := if ctx.handlerRegistered then [.deregister] else []
  let c1 := { ctx with handlerRegistered := false }
  let ev2 := ev1 ++ if c1.aborted then [] else [.abortFired]
  let c2 := { c1 with aborted := true }
  if c2.readerPresent && !c2.readerReleased && o.releaseThrows then
    .error (c2, ev2)
  else
    let ev3 := ev2 ++ if c2.readerPresent && !c2.readerReleased then [.releaseLock] else []
    let c3 := { c2 with readerReleased := c2.readerReleased || c2.readerPresent }
    if c3.hasOnError && o.onErrorThrows then
      .error (c3, ev3)
    else
      .ok (c3, ev3 ++ if c3.hasOnError then [.onErrorCancel] else [])

/-- cancelRequest as its caller sees it: the try block wrapped in the
catch that logs to the console and swallows the failure.  An
`Except.error` result would mean an exception escaping to the caller. -/
def cancelRequest (ctx : CancelCtx) (o : CancelOracle) :
    Except (List Char) (CancelCtx × List CEv) :=
  match cancelTryBody ctx o with
  | .ok r => .ok r
  | .error (c, evs) => .ok (c, evs ++ [.consoleError])

/-- The resulting state and effect trace of one cancelRequest call. -/
def cancelRun (ctx : CancelCtx) (o : CancelOracle) : CancelCtx × List CEv :=
  match cancelTryBody ctx o with
  | .ok r => r
  | .error (c, evs) => (c, evs ++ [.consoleError])

end StreamAxios

namespace StreamAxios

theorem splitSSE_nil : splitSSE [] = ([], []) := rfl

theorem splitSSE_cons_sep (rest : List Char) :
    splitSSE ('\n' :: '\n' :: rest) = ([] :: (splitSSE rest).1, (splitSSE rest).2) := by
  simp [splitSSE]

theorem splitSSE_cons (c : Char) (rest : List Char)
    (h : ¬(c = '\n' ∧ rest.head? = some '\n')) :
    splitSSE (c :: rest) = consHead c (splitSSE rest) := by
  cases rest with
  | nil => rfl
  | cons r rt =>
    have h2 : ¬(c = '\n' ∧ r = '\n') := by simpa using h
    simp [splitSSE, h2]

/-- When the scan finds no separator at all, the trailing segment is the
whole input. -/
theorem splitSSE_of_no_sep (s : List Char) (h : (splitSSE s).1 = []) :
    (splitSSE s).2 = s := by
  match s with
  | [] => rw [splitSSE_nil]
  | c :: rest =>
    by_cases hc : c = '\n' ∧ rest.head? = some '\n'
    · obtain ⟨hc1, hc2⟩ := hc
      subst hc1
      cases rest with
      | nil => simp at hc2
      | cons r rt =>
        simp at hc2
        subst hc2
        rw [splitSSE_cons_sep] at h
        simp at h
    · rw [splitSSE_cons c rest hc] at h ⊢
      rcases hp : splitSSE rest with ⟨ps, pl⟩
      rw [hp] at h
      match ps with
      | [] =>
        have hpl : pl = rest := by
          have h2 := splitSSE_of_no_sep rest (by rw [hp])
          rw [hp] at h2
          exact h2
        simp [consHead, hpl]
      | q :: qs =>
        simp [consHead] at h
termination_by s.length

/-- Splitting a concatenation: the scan of `a ++ b` produces the completed
segments of `a`, then the segments obtained by rescanning the trailing
segment of `a` glued to `b`.  This is the exact algebra behind the
stateful parser's buffer handling. -/
theorem splitSSE_append (a b : List Char) :
    splitSSE (a ++ b) =
      ((splitSSE a).1 ++ (splitSSE ((splitSSE a).2 ++ b)).1,
       (splitSSE ((splitSSE a).2 ++ b)).2) := by
  match a with
  | [] =>
    rw [splitSSE_nil]
    simp
  | [c] =>
    have h1 : splitSSE [c] = ([], [c]) := by
      rw [splitSSE_cons c [] (by simp)]
      rw [splitSSE_nil]
      rfl
    rw [h1]
    simp
  | c :: c' :: rest =>
    by_cases hc : c = '\n' ∧ c' = '\n'
    · obtain ⟨h1, h2⟩ := hc
      subst h1
      subst h2
      have e1 : ('\n' :: '\n' :: rest) ++ b = '\n' :: '\n' :: (rest ++ b) := rfl
      rw [e1, splitSSE_cons_sep, splitSSE_cons_sep, splitSSE_append rest b]
      simp
    · have hcc : ¬(c = '\n' ∧ (c' :: rest).head? = some '\n') := by
        simpa using hc
      have hcc2 : ¬(c = '\n' ∧ (c' :: (rest ++ b)).head? = some '\n') := by
        simpa using hc
      have ih := splitSSE_append (c' :: rest) b
      have e3 : (c' :: rest) ++ b = c' :: (rest ++ b) := rfl
      rw [e3] at ih
      have e1 : (c :: c' :: rest) ++ b = c :: (c' :: (rest ++ b)) := rfl
      rw [e1, splitSSE_cons c (c' :: (rest ++ b)) hcc2, ih,
          splitSSE_cons c (c' :: rest) hcc]
      rcases hp : splitSSE (c' :: rest) with ⟨ps, pl⟩
      match ps with
      | [] =>
        have hpl : pl = c' :: rest := by
          have h2 := splitSSE_of_no_sep (c' :: rest) (by rw [hp])
          rw [hp] at h2
          exact h2
        subst hpl
        dsimp only [consHead, List.nil_append, List.cons_append]
        rw [splitSSE_cons c (c' :: (rest ++ b)) hcc2]
        simp [consHead]
      | q :: qs =>
        simp [consHead]
termination_by a.length
decreasing_by
  all_goals simp
  all_goals omega

/-- Folding the feed step starting from a buffer that is the trailing
segment of some already-accumulated text `a` (with the events of `a`'s
completed frames already emitted) is the same as splitting the whole
accumulated text at once. -/
theorem feedMany_go (chunks : List (List Char)) (a : List Char) :
    chunks.foldl feedStep
      ((splitSSE a).2, (splitSSE a).1.filterMap processFrame) =
      ((splitSSE (a ++ chunks.flatten)).2,
       (splitSSE (a ++ chunks.flatten)).1.filterMap processFrame) := by
  induction chunks generalizing a with
  | nil => simp
  | cons c cs ih =>
    have hstep := splitSSE_append a c
    have h1 : feedStep ((splitSSE a).2, (splitSSE a).1.filterMap processFrame) c =
        ((splitSSE (a ++ c)).2, (splitSSE (a ++ c)).1.filterMap processFrame) := by
      simp [feedStep, feedSSE, hstep, List.filterMap_append]
    rw [List.foldl_cons, h1, ih (a ++ c)]
    simp

/-- The state of a parser instance after any sequence of feed calls is a
pure function of the concatenation of everything fed so far. -/
theorem feedMany_eq (chunks : List (List Char)) :
    feedMany chunks =
      ((splitSSE chunks.flatten).2,
       (splitSSE chunks.flatten).1.filterMap processFrame) := by
  have h := feedMany_go chunks []
  simpa [feedMany, splitSSE_nil] using h

end StreamAxios

namespace StreamAxios

/-- C1: for every SSE text and every way of splitting it into chunks
(including mid-line and mid-field splits), feeding the chunks in order to
the incremental parser emits the same ordered event sequence as feeding
the whole text in one call; in particular feeding "data: he" then
"llo\n\n" invokes the callback exactly once, with data "hello". -/
theorem c1_incremental_split_equiv :
    (∀ chunks : List (List Char),
      (feedMany chunks).2 = (feedMany [chunks.flatten]).2) ∧
    (feedMany [lc "data: he", lc "llo\n\n"]).2 = [{ data := some (lc "hello") }] := by
  constructor
  · intro chunks
    rw [feedMany_eq, feedMany_eq]
    simp
  · decide

/-- C9: after every feed call the parser's buffer is exactly the last
segment of splitting the accumulated text on the blank-line separator,
and the events emitted come exclusively from the earlier (completed)
segments — the retained trailing fragment is never emitted. -/
theorem c9_buffer_trailing_fragment :
    ∀ chunks : List (List Char),
      (feedMany chunks).1 = (jsSplitNN chunks.flatten).getLastD [] ∧
      (feedMany chunks).2 = (jsSplitNN chunks.flatten).dropLast.filterMap processFrame := by
  intro chunks
  rw [feedMany_eq]
  constructor
  · simp [jsSplitNN]
  · simp [jsSplitNN]

/-- Dropping the empty segments before a filterMap whose function rejects
the empty string does not change the result. -/
theorem filterMap_filter_nonempty {β : Type} (bs : List (List Char))
    (f : List Char → Option β) (hf : f [] = none) :
    (bs.filter fun b => !b.isEmpty).filterMap f = bs.filterMap f := by
  induction bs with
  | nil => rfl
  | cons b bs ih =>
    cases b with
    | nil => simp [hf, ih]
    | cons x xs =>
      cases hfx : f (x :: xs) <;> simp [List.filterMap_cons, hfx, ih]

/-- The data lines collected by parseSSEEvent's scan are exactly the
per-line data contributions, in order. -/
theorem foldl_dataLines (lines : List (List Char)) (acc : EvAcc) :
    (lines.foldl processLine acc).dataLines =
      acc.dataLines ++ lines.filterMap dataContent := by
  induction lines generalizing acc with
  | nil => simp
  | cons l ls ih =>
    rw [List.foldl_cons, ih]
    have hdl : (processLine acc l).dataLines =
        acc.dataLines ++ (dataContent l).toList := by
      unfold processLine dataContent
      by_cases h1 : (lc "data:").isPrefixOf l = true
      · simp [h1]
      · by_cases h2 : (lc "event:").isPrefixOf l = true
        · simp [h1, h2]
        · by_cases h3 : (lc "id:").isPrefixOf l = true
          · simp [h1, h2, h3]
          · by_cases h4 : (lc "retry:").isPrefixOf l = true
            · simp only [h1, h2, h3, h4, Bool.false_eq_true, if_false, if_true]
              cases jsParseInt (jsTrim (l.drop 6)) <;> simp
            · simp [h1, h2, h3, h4]
    rw [hdl]
    cases hd : dataContent l <;> simp [hd]

end StreamAxios

namespace StreamAxios

/-- The per-frame emission of parseSSEChunk agrees with the spec-worded
newline-join of the frame's data-line contents: the parsed event's data
field is emitted iff that join is non-empty. -/
theorem chunkEmit_eq (block : List Char) :
    (match parseSSEEvent block with
     | some ev =>
       match ev.data with
       | some d => if d.isEmpty then none else some d
       | none => none
     | none => none) =
      (let d := List.intercalate (lc "\n") ((splitLines block).filterMap dataContent)
       if d.isEmpty then none else some d) := by
  have hdl : ((splitLines block).foldl processLine ({} : EvAcc)).dataLines =
      (splitLines block).filterMap dataContent := by
    simpa using foldl_dataLines (splitLines block) {}
  simp only [parseSSEEvent]
  set acc := (splitLines block).foldl processLine ({} : EvAcc) with hacc
  rw [← hdl]
  by_cases hd : acc.dataLines = []
  · simp only [hd, List.intercalate, if_true, reduceIte]
    simp [List.intercalate]
    split
    · next ev heq =>
      split at heq
      · cases heq
        rfl
      · cases heq
    · rfl
  · rcases hax : acc.dataLines with _ | ⟨x, xs⟩
    · exact absurd hax hd
    · simp [hax]

/-- The stateless extractor computes exactly the spec-worded extraction. -/
theorem parseSSEChunk_eq_extractSpec (t : List Char) :
    parseSSEChunk t = extractSpec t := by
  unfold parseSSEChunk extractSpec
  rw [filterMap_filter_nonempty _ _ (by decide)]
  exact List.filterMap_congr fun block _ => chunkEmit_eq block

end StreamAxios

namespace StreamAxios

/-- C7: the stateless extractor splits on the blank-line separator and,
per frame, joins the content of every `data:`-matching line with the same
newline-join rule as the incremental parser, invoking the callback with
the result iff it is non-empty; in particular it emits "hello" then
"world" on the two-frame example. -/
theorem c7_stateless_extractor :
    (∀ t : List Char, parseSSEChunk t = extractSpec t) ∧
    parseSSEChunk (lc "data: hello\n\ndata: world\n\n") = [lc "hello", lc "world"] := by
  constructor
  · exact parseSSEChunk_eq_extractSpec
  · decide

/-- Each loop iteration either leaves the retry field unchanged or sets
it to the successfully parsed value of the current retry line. -/
theorem processLine_retry (acc : EvAcc) (l : List Char) :
    (processLine acc l).retry = acc.retry ∨
    ((lc "retry:").isPrefixOf l = true ∧
     jsParseInt (jsTrim (l.drop 6)) = (processLine acc l).retry) := by
  unfold processLine
  by_cases h1 : (lc "data:").isPrefixOf l = true
  · simp [h1]
  · by_cases h2 : (lc "event:").isPrefixOf l = true
    · simp [h1, h2]
    · by_cases h3 : (lc "id:").isPrefixOf l = true
      · simp [h1, h2, h3]
      · by_cases h4 : (lc "retry:").isPrefixOf l = true
        · simp only [h1, h2, h3, h4, Bool.false_eq_true, if_false, if_true]
          cases hj : jsParseInt (jsTrim (l.drop 6)) with
          | none => simp [hj]
          | some n => simp [hj, h4]
        · simp [h1, h2, h3, h4]

/-- The retry value after the scan either survives from the initial
accumulator or originates from some retry line that parseInt accepted. -/
theorem foldl_retry (lines : List (List Char)) (acc : EvAcc) :
    (lines.foldl processLine acc).retry = acc.retry ∨
    ∃ line ∈ lines, (lc "retry:").isPrefixOf line = true ∧
      jsParseInt (jsTrim (line.drop 6)) = (lines.foldl processLine acc).retry := by
  induction lines generalizing acc with
  | nil => left; rfl
  | cons l ls ih =>
    rw [List.foldl_cons]
    rcases ih (processLine acc l) with h | ⟨line, hmem, hpfx, hval⟩
    · rw [h]
      rcases processLine_retry acc l with h2 | ⟨hpfx, hval⟩
      · left
        exact h2
      · right
        exact ⟨l, by simp, hpfx, hval⟩
    · right
      exact ⟨line, by simp [hmem], hpfx, hval⟩

/-- C8 (amended): a `retry:` line sets the retry field to the parseInt
result exactly when that result is not NaN; every retry value present on
an emitted event is the parsed integer of some `retry:` line of the
frame.  The value may be negative, because parseInt accepts a sign: the
claim's non-negativity clause is refuted by the counterexample. -/
theorem c8_retry_parsed_integer :
    ∀ (block : List Char) (ev : SSEEvent) (r : Int),
      parseSSEEvent block = some ev → ev.retry = some r →
      ∃ line ∈ splitLines block,
        (lc "retry:").isPrefixOf line = true ∧
        jsParseInt (jsTrim (line.drop 6)) = some r := by
  intro block ev r hev hr
  have hacc : ev.retry = ((splitLines block).foldl processLine {}).retry := by
    simp only [parseSSEEvent] at hev
    split at hev
    · split at hev
      · injection hev with h
        subst h
        rfl
      · cases hev
    · split at hev
      · injection hev with h
        subst h
        rfl
      · cases hev
  rw [hacc] at hr
  rcases foldl_retry (splitLines block) {} with h | ⟨line, hmem, hpfx, hval⟩
  · rw [hr] at h
    cases h
  · exact ⟨line, hmem, hpfx, by rw [hval, hr]⟩

/-- Witness for C8: the frame "retry: 100" emits retry 100, traced back
to its parseable retry line by the amended theorem. -/
theorem c8_retry_parsed_integer_witness :
    ∃ line ∈ splitLines (lc "retry: 100"),
      (lc "retry:").isPrefixOf line = true ∧
      jsParseInt (jsTrim (line.drop 6)) = some 100 :=
  c8_retry_parsed_integer (lc "retry: 100") { retry := some 100 } 100
    (by decide) (by decide)

/-- C8 counterexample: a frame whose retry line carries "-5" is emitted by
the incremental parser with retry equal to -5, a negative integer —
refuting the claim that every retry field present on an emitted event is
a non-negative integer. -/
theorem c8_counterexample_negative_retry :
    (feedMany [lc "retry:-5\n\n"]).2 = [{ retry := some (-5) }] ∧
    ¬((0 : Int) ≤ -5) := by
  constructor
  · decide
  · decide

end StreamAxios

namespace StreamAxios

/-- The read loop's trace is the delivered chunks followed by the
ending's terminal effects. -/
theorem readLoop_decomp (cs : List (List Char)) (e : StreamEnd) :
    readLoop cs e = cs.map SEv.onChunk ++ readLoop [] e := by
  induction cs with
  | nil => simp
  | cons c cs ih => simp [readLoop, ih]

/-- C2: contrary to the claim — and to the repository's own type
declarations and README, which document an auto-retry feature —
createStreamRequest consults no retry configuration: whatever retry
count and delay are configured, the first issuance failure immediately
invokes onError with the failure message, no re-issue ever happens, and
onComplete is never reached. -/
theorem c2_no_retry_in_code :
    ∀ (r d : Nat),
      runSession { retry := r, retryDelay := d } (.failed (lc "Network Error")) =
        [SEv.onError (lc "Network Error")] ∧
      completeCount
        (runSession { retry := r, retryDelay := d } (.failed (lc "Network Error"))) = 0 := by
  intro r d
  exact ⟨rfl, rfl⟩

/-- C3 counterexample: with an onError callback supplied, the second
invocation of the cancel handle is not a no-op — it raises the manual
cancellation notice through onError again (the first call already
delivered deregistration, abort, lock release, and one notice). -/
theorem c3_counterexample_second_cancel_notice :
    (cancelRun ⟨true, false, true, false, true⟩ {}).2 =
      [CEv.deregister, CEv.abortFired, CEv.releaseLock, CEv.onErrorCancel] ∧
    (cancelRun (cancelRun ⟨true, false, true, false, true⟩ {}).1 {}).2 =
      [CEv.onErrorCancel] := by
  exact ⟨by decide, by decide⟩

/-- C3 (amended): a second invocation of the cancel handle releases no
resources — the deregistration, the controller abort, and the reader lock
release of the first call are not repeated — but it does invoke onError
with the cancellation notice again whenever onError was supplied. -/
theorem c3_second_cancel_no_release_but_duplicate_notice :
    ∀ ctx : CancelCtx,
      (cancelRun (cancelRun ctx {}).1 {}).2 =
        (if (cancelRun ctx {}).1.hasOnError then [CEv.onErrorCancel] else []) := by
  intro ctx
  rcases ctx with ⟨hr, a, rp, rr, ho⟩
  cases hr <;> cases a <;> cases rp <;> cases rr <;> cases ho <;> decide

/-- C10: the cancel operation never raises an exception to its caller:
for every state and failure oracle cancelRequest returns normally, and a
failing try block is swallowed into the logged result. -/
theorem c10_cancel_never_throws :
    (∀ (ctx : CancelCtx) (o : CancelOracle),
      cancelRequest ctx o = Except.ok (cancelRun ctx o)) ∧
    (∀ (ctx : CancelCtx) (o : CancelOracle) (c : CancelCtx) (evs : List CEv),
      cancelTryBody ctx o = Except.error (c, evs) →
      cancelRun ctx o = (c, evs ++ [CEv.consoleError])) := by
  constructor
  · intro ctx o
    unfold cancelRequest cancelRun
    cases cancelTryBody ctx o with
    | ok r => rfl
    | error e =>
      rcases e with ⟨c, evs⟩
      rfl
  · intro ctx o c evs h
    unfold cancelRun
    rw [h]

/-- Witness for C10: a cancel whose onError callback throws still returns
normally, with the failure logged after the release effect. -/
theorem c10_cancel_never_throws_witness :
    cancelRun ⟨false, true, true, false, true⟩ ⟨false, true⟩ =
      (⟨false, true, true, true, true⟩, [CEv.releaseLock, CEv.consoleError]) :=
  c10_cancel_never_throws.2 ⟨false, true, true, false, true⟩ ⟨false, true⟩
    ⟨false, true, true, true, true⟩ [CEv.releaseLock] rfl

/-- C4 counterexample: a session wired with a not-yet-fired external
signal whose issuance fails never runs cleanup — the observer registered
on the external signal is not deregistered on that terminal transition,
refuting deregistration on every terminal transition. -/
theorem c4_counterexample_observer_leak :
    (({ hasSignal := true } : StreamOptions).hasSignal &&
      !({ hasSignal := true } : StreamOptions).signalAborted) = true ∧
    SEv.cleanupRun ∉
      runSession { hasSignal := true } (.failed (lc "Network Error")) := by
  exact ⟨by decide, by decide⟩

/-- C4 (amended): the observer is deregistered on every terminal
transition of the read loop (end of stream, read failure, abort) and by
the manual cancel handle, but not on an issue-time failure nor on an
issue-time cancellation rejection — there cleanup never runs. -/
theorem c4_dereg_except_issue_failure :
    (∀ (opts : StreamOptions) (cs : List (List Char)) (e : StreamEnd),
      SEv.cleanupRun ∈ runSession opts (.stream cs e)) ∧
    (∀ (ctx : CancelCtx) (o : CancelOracle),
      ctx.handlerRegistered = true → CEv.deregister ∈ (cancelRun ctx o).2) ∧
    (∀ (opts : StreamOptions) (m : List Char),
      SEv.cleanupRun ∉ runSession opts (.failed m)) ∧
    (∀ opts : StreamOptions, SEv.cleanupRun ∉ runSession opts .canceled) := by
  refine ⟨?_, ?_, ?_, ?_⟩
  · intro opts cs e
    rw [show runSession opts (.stream cs e) = readLoop cs e from rfl, readLoop_decomp]
    cases e <;> simp [readLoop]
  · intro ctx o h
    rcases ctx with ⟨hr, a, rp, rr, ho⟩
    rcases o with ⟨rt, ot⟩
    simp only at h
    subst h
    cases a <;> cases rp <;> cases rr <;> cases ho <;> cases rt <;> cases ot <;> decide
  · intro opts m
    simp [runSession]
  · intro opts
    simp [runSession]

/-- Witness for C4 (amended): deregistration happens at end of stream and
on a manual cancel with a registered handler. -/
theorem c4_dereg_witness :
    SEv.cleanupRun ∈ runSession ({} : StreamOptions) (.stream [lc "hi"] .done) ∧
    CEv.deregister ∈ (cancelRun ⟨true, false, false, false, false⟩ {}).2 :=
  ⟨c4_dereg_except_issue_failure.1 {} [lc "hi"] .done,
   c4_dereg_except_issue_failure.2.1 ⟨true, false, false, false, false⟩ {} rfl⟩

/-- C5 counterexample: a session cancelled only after its first chunk was
delivered (hence not cancelled before a callback was reachable — onChunk
fired) ends with zero terminal callbacks: the AbortError path suppresses
both onComplete and onError, refuting "exactly one, never zero". -/
theorem c5_counterexample_zero_terminal :
    chunkCount (runSession {} (.stream [lc "hi"] .aborted)) = 1 ∧
    termCount (runSession {} (.stream [lc "hi"] .aborted)) = 0 := by
  exact ⟨by decide, by decide⟩

/-- C5 (amended): for every session whose outcome involves no
cancellation at all, exactly one of onComplete/onError is invoked — never
both, never zero.  Once a cancellation takes effect the automatic path
invokes neither; only the manual cancel handle separately raises its own
notice. -/
theorem c5_exactly_one_terminal_without_cancel :
    ∀ (opts : StreamOptions) (oc : IssueOutcome),
      isCancelOutcome oc = false → termCount (runSession opts oc) = 1 := by
  intro opts oc h
  cases oc with
  | canceled => simp [isCancelOutcome] at h
  | failed m => rfl
  | stream cs e =>
    rw [show runSession opts (.stream cs e) = readLoop cs e from rfl, readLoop_decomp]
    unfold termCount
    rw [List.countP_append]
    have h1 : (cs.map SEv.onChunk).countP isTerminalEv = 0 := by
      rw [List.countP_eq_zero]
      intro x hx
      obtain ⟨s, hs, rfl⟩ := List.mem_map.mp hx
      simp [isTerminalEv]
    rw [h1]
    cases e with
    | done => rfl
    | readError m => rfl
    | aborted => simp [isCancelOutcome] at h

/-- Witness for C5 (amended): an uncancelled two-chunk session that ends
normally fires exactly one terminal callback. -/
theorem c5_exactly_one_terminal_witness :
    termCount (runSession ({} : StreamOptions) (.stream [lc "a", lc "b"] .done)) = 1 :=
  c5_exactly_one_terminal_without_cancel {} (.stream [lc "a", lc "b"] .done) (by decide)

/-- C6: once a cancellation takes effect no further onChunk or onComplete
invocation occurs: an aborted session's trace is exactly the chunks
delivered before the abort followed by cleanup alone; cancelling before
the first chunk yields zero onChunk and zero onComplete; an issue-time
cancellation yields no callbacks at all. -/
theorem c6_no_callbacks_after_cancel :
    (∀ (opts : StreamOptions) (cs : List (List Char)),
      runSession opts (.stream cs .aborted) = cs.map SEv.onChunk ++ [SEv.cleanupRun]) ∧
    (∀ opts : StreamOptions,
      chunkCount (runSession opts (.stream [] .aborted)) = 0 ∧
      completeCount (runSession opts (.stream [] .aborted)) = 0) ∧
    (∀ opts : StreamOptions, runSession opts .canceled = []) := by
  refine ⟨?_, ?_, ?_⟩
  · intro opts cs
    rw [show runSession opts (.stream cs .aborted) = readLoop cs .aborted from rfl,
        readLoop_decomp]
    rfl
  · intro opts
    exact ⟨rfl, rfl⟩
  · intro opts
    rfl

end StreamAxios
